import Mathlib

/-!
Verification of the request-authentication protocol and streaming response
reassembly of the managed-inference-chat repository.

JavaScript strings are modelled as `List Char`; JavaScript numbers appearing
in the authentication paths are integers (millisecond timestamps), modelled
as `Int`, with `parseInt` returning `Option Int` (`none` models `NaN`; a
comparison against `NaN` is `false` in JavaScript, which the embeddings
reflect at each use site).  Node primitives external to the repository
(`createHmac(...).digest('hex')`, base64 encode/decode, the 16 random
bytes) are parameters of the embedded functions.
-/

/-- JavaScript strings as lists of characters. -/
abbrev Str := List Char

/-- Shorthand: the character list of a string literal. -/
def str (s : String) : Str := s.data

/-- JavaScript truthiness of a string: the empty string is falsy. -/
def truthy : Option Str → Bool
  | some (_ :: _) => true
  | _ => false

/-- JavaScript `a || b` on optional strings (empty string and
`undefined` are falsy, so both fall through to `b`). -/
def jsOr (a b : Option Str) : Option Str :=
  if truthy a then a else b

/-- JavaScript `a || b` on optional arrays: an array value (even empty)
is truthy, only `undefined`/`null` falls through. -/
def jsOrArr {α : Type} (a b : Option (List α)) : Option (List α) :=
  match a with
  | some x => some x
  | none => b

/-- The decimal digit character for `n % 10`-style values. -/
def digitChar (n : Nat) : Char :=
  if n = 0 then '0' else if n = 1 then '1' else if n = 2 then '2'
  else if n = 3 then '3' else if n = 4 then '4' else if n = 5 then '5'
  else if n = 6 then '6' else if n = 7 then '7' else if n = 8 then '8'
  else '9'

/-- Numeric value of a decimal digit character. -/
def digitVal (c : Char) : Nat := c.toNat - 48

/-- Fuel-indexed decimal rendering; the fuel strictly dominates the
argument so the base case is never hit with fuel `n + 1`. -/
def natToStrAux : Nat → Nat → Str
  | 0, _ => []
  | fuel + 1, n =>
    if n < 10 then [digitChar n]
    else natToStrAux fuel (n / 10) ++ [digitChar (n % 10)]

/-- Decimal rendering of a natural number, modelling JavaScript number →
string coercion for nonnegative integers (`Date.now()` template usage). -/
def natToStr (n : Nat) : Str := natToStrAux (n + 1) n

/-- Value of a list of decimal digit characters, most significant first. -/
def digitsVal (s : Str) : Nat :=
  s.foldl (fun a c => a * 10 + digitVal c) 0

/-- Leading decimal-digit parse: `none` when no leading digit exists. -/
def parseDigits (s : Str) : Option Nat :=
  let ds := s.takeWhile Char.isDigit
  if ds = [] then none else some (digitsVal ds)

/-- JavaScript `parseInt(s)` (base 10): skip leading spaces, optional
sign, then leading digits; `none` models `NaN`. -/
def parseIntJS (s : Str) : Option Int :=
  let t := s.dropWhile (fun c => c == ' ')
  match t with
  | '-' :: rest => (parseDigits rest).map (fun n => -(n : Int))
  | '+' :: rest => (parseDigits rest).map (fun n => (n : Int))
  | _ => (parseDigits t).map (fun n => (n : Int))

/-- JavaScript `String.prototype.split` with a one-character separator:
every occurrence splits, empty segments are kept. -/
def splitOnChar (sep : Char) : Str → List Str
  | [] => [[]]
  | c :: cs =>
    let r := splitOnChar sep cs
    if c = sep then [] :: r
    else
      match r with
      | [] => [[c]]
      | h :: t => (c :: h) :: t

/-- UTF-8 encoding of one character (`Buffer.from(string)` byte view). -/
def utf8Bytes (c : Char) : List Nat :=
  let n := c.toNat
  if n < 0x80 then [n]
  else if n < 0x800 then [0xC0 ||| (n >>> 6), 0x80 ||| (n &&& 0x3F)]
  else if n < 0x10000 then
    [0xE0 ||| (n >>> 12), 0x80 ||| ((n >>> 6) &&& 0x3F), 0x80 ||| (n &&& 0x3F)]
  else
    [0xF0 ||| (n >>> 18), 0x80 ||| ((n >>> 12) &&& 0x3F),
     0x80 ||| ((n >>> 6) &&& 0x3F), 0x80 ||| (n &&& 0x3F)]

/-- `Buffer.from(s)`: the UTF-8 bytes of a string. -/
def strBytes (s : Str) : List Nat := s.flatMap utf8Bytes

/-- Node `crypto.timingSafeEqual` on two buffers: throws (`Except.error`)
when the byte lengths differ, otherwise compares contents. -/
def timingSafeEqual (a b : List Nat) : Except Unit Bool :=
  if a.length = b.length then Except.ok (a == b) else Except.error ()

/-!
## Server HMAC middleware — `server/src/middleware/security.ts`

`verifyRequest` checks four headers, the timestamp window, the used-nonce
set and the HMAC-SHA256 signature, sending a 401 reply and returning
`false` on each failed check.  `createHmac('sha256', secret)` is modelled
by the parameter `hmac : Str → Str → Str` (secret, payload → hex digest).
-/

namespace Security

/-- `APP_ID` constant from `security.ts`. -/
def APP_ID : Str := str "mia-chat-app"

/-- `MAX_TIMESTAMP_DIFF = 5 * 60 * 1000`. -/
def MAX_TIMESTAMP_DIFF : Int := 5 * 60 * 1000

/-- The four security headers plus request fields read by `verifyRequest`;
`none` header models an absent header, `body = none` models a request
whose `request.body` is falsy, `body = some b` carries
`JSON.stringify(request.body)`. -/
structure HmacRequest where
  appId : Option Str
  timestamp : Option Str
  signature : Option Str
  nonce : Option Str
  method : Str
  url : Str
  body : Option Str
deriving DecidableEq, Repr

/-- Error replies `verifyRequest` can send with status 401. -/
inductive HmacError where
  | missingHeaders
  | invalidAppId
  | invalidTimestamp
  | nonceUsed
  | invalidSignature
deriving DecidableEq, Repr

/-- Result of one `verifyRequest` call: the boolean return value, the
reply sent (none when the request is accepted), and the used-nonce set
after the call. -/
structure HmacResult where
  valid : Bool
  sent : Option HmacError
  nonces : List Str
deriving DecidableEq, Repr

/-- The timestamp freshness test `Math.abs(now - parseInt(timestamp)) >
MAX_TIMESTAMP_DIFF`: when `parseInt` yields `NaN` the JavaScript
comparison is `false`, so the test never fires. -/
def timestampStale (now : Int) (timestamp : Str) : Bool :=
  match parseIntJS timestamp with
  | none => false
  | some t => (now - t).natAbs > MAX_TIMESTAMP_DIFF.natAbs

/-- The signed payload `method:path:timestamp:nonce[:body]` built at
`security.ts:64-65`; the body segment is appended only when the
(stringified) body is truthy. -/
def hmacPayload (method url timestamp nonce : Str) (body : Option Str) :
    Str :=
  let b := match body with | none => [] | some s => s
  method ++ [':'] ++ url ++ [':'] ++ timestamp ++ [':'] ++ nonce ++
    (if b ≠ [] then [':'] ++ b else [])

/-- `verifyRequest` from `security.ts`, state-passing over the used-nonce
set; `Except.error` models the `timingSafeEqual` exception on buffers of
different length. -/
def verifyRequest (hmac : Str → Str → Str) (secret : Str)
    (req : HmacRequest) (now : Int) (nonces : List Str) :
    Except Unit HmacResult :=
  if ¬ (truthy req.appId = true ∧ truthy req.timestamp = true ∧
        truthy req.signature = true ∧ truthy req.nonce = true) then
    Except.ok ⟨false, some HmacError.missingHeaders, nonces⟩
  else if req.appId.getD [] ≠ APP_ID then
    Except.ok ⟨false, some HmacError.invalidAppId, nonces⟩
  else if timestampStale now (req.timestamp.getD []) then
    Except.ok ⟨false, some HmacError.invalidTimestamp, nonces⟩
  else if nonces.contains (req.nonce.getD []) then
    Except.ok ⟨false, some HmacError.nonceUsed, nonces⟩
  else
    match timingSafeEqual (strBytes (req.signature.getD []))
      (strBytes (hmac secret
        (hmacPayload req.method req.url (req.timestamp.getD [])
          (req.nonce.getD []) req.body))) with
    | Except.error _ => Except.error ()
    | Except.ok false =>
      Except.ok ⟨false, some HmacError.invalidSignature, nonces⟩
    | Except.ok true =>
      Except.ok ⟨true, none, nonces ++ [req.nonce.getD []]⟩

end Security

/-!
## Chat route — `server/src/routes/chat.ts`

The plugin installs a `preHandler` hook that calls
`Security.verifyRequest` for `POST /api/chat`.  Fastify semantics: the
handler runs only if the hook neither sent a reply nor threw.
`verifyRequest` sends a 401 reply on every `false` return, which is what
short-circuits the pipeline.
-/

namespace Chat

/-- Outcome of dispatching one request through the chat route's
`preHandler` hook and (possibly) its handler. -/
structure RouteOutcome where
  handlerRan : Bool
  securityReply : Option Security.HmacError
  nonces : List Str
deriving DecidableEq, Repr

/-- Dispatch of one request to the chat plugin: the `preHandler` hook
(`chat.ts:20-27`) runs `verifyRequest` for `POST /api/chat`; per Fastify
semantics the handler is skipped exactly when the hook already sent a
reply (or threw). -/
def runChatRoute (hmac : Str → Str → Str) (secret : Str)
    (req : Security.HmacRequest) (now : Int) (nonces : List Str) :
    Except Unit RouteOutcome :=
  if req.method = str "POST" ∧ req.url = str "/api/chat" then
    match Security.verifyRequest hmac secret req now nonces with
    | Except.error e => Except.error e
    | Except.ok r =>
      match r.sent with
      | some e => Except.ok ⟨false, some e, r.nonces⟩
      | none => Except.ok ⟨true, none, r.nonces⟩
  else Except.ok ⟨true, none, nonces⟩

end Chat

/-!
## CSRF token scheme — `server/src/lib/config.ts` (CSRF middleware part)

`generateCSRFToken` signs `timestamp:randomValue` and base64-encodes
`timestamp:randomValue:signature`.  `verifyCSRFToken` checks the header
token, the session, byte-equality with the session token (outside the
`try`), then inside the `try` the format, signature and expiry of the
decoded token.  Every `false` return goes through
`clearSessionAndSendError`.  Node's base64 is modelled by the parameter
pair `enc` / `dec`.
-/

namespace Csrf

/-- `TOKEN_EXPIRY = 10 * 60 * 1000` from the source; the verifier takes
the ttl as an explicit argument with this value as its source default. -/
def TOKEN_EXPIRY : Int := 10 * 60 * 1000

/-- Machine-readable codes of `clearSessionAndSendError`. -/
inductive CsrfCode where
  | missing
  | expired
  | invalid
  | mismatch
deriving DecidableEq, Repr

/-- Server session record: `request.session.csrfToken`. -/
structure Session where
  csrfToken : Option Str
deriving DecidableEq, Repr

/-- The parts of a request read by `verifyCSRFToken`. -/
structure CsrfRequest where
  csrfHeader : Option Str
  session : Option Session
deriving DecidableEq, Repr

/-- Observable effects of one `verifyCSRFToken` call: the boolean return,
whether the session was destroyed, which cookies were cleared, and the
403 reply body (error message and code) when one was sent. -/
structure Outcome where
  allowed : Bool
  sessionDestroyed : Bool
  clearedCsrfCookie : Bool
  clearedSessionCookie : Bool
  sent : Option (Str × CsrfCode)
deriving DecidableEq, Repr

/-- `clearSessionAndSendError` (`config.ts`): destroys the session when
one exists, clears both the `csrf-token` and `sessionId` cookies, and
sends a 403 reply carrying the message and code. -/
def clearSessionAndSendError (sessionPresent : Bool) (error : Str)
    (code : CsrfCode) : Outcome :=
  { allowed := false
    sessionDestroyed := sessionPresent
    clearedCsrfCookie := true
    clearedSessionCookie := true
    sent := some (error, code) }

/-- The outcome of an accepted request: no effects, `true` returned. -/
def allowOutcome : Outcome :=
  { allowed := true
    sessionDestroyed := false
    clearedCsrfCookie := false
    clearedSessionCookie := false
    sent := none }

/-- `generateCSRFToken`: `base64(timestamp:randomValue:signature)` with
`signature = HMAC-SHA256(timestamp:randomValue, secret)`; `now` is
`Date.now()` and `randomValue` the hex of 16 random bytes. -/
def generateCSRFToken (hmac : Str → Str → Str) (enc : Str → Str)
    (secret : Str) (now : Nat) (randomValue : Str) : Str :=
  let payload := natToStr now ++ [':'] ++ randomValue
  let signature := hmac secret payload
  enc (payload ++ [':'] ++ signature)

/-- Result of the `try` block of `verifyCSRFToken`. -/
inductive CoreResult where
  | allow
  | denyFormat
  | denySig
  | denyExpired
deriving DecidableEq, Repr

/-- The `try` block of `verifyCSRFToken` (`config.ts:197-224`): decode,
split on `:` into exactly three parts, recompute and compare the
signature (this `timingSafeEqual` can throw, caught by the wrapper), then
the expiry check `now - parseInt(timestamp) > TOKEN_EXPIRY` (false when
`parseInt` yields `NaN`). -/
def verifyTokenCore (hmac : Str → Str → Str) (dec : Str → Str)
    (secret : Str) (ttl : Int) (clientToken : Str) (now : Int) :
    Except Unit CoreResult :=
  match splitOnChar ':' (dec clientToken) with
  | [timestamp, randomValue, signature] =>
    match timingSafeEqual (strBytes signature)
      (strBytes (hmac secret (timestamp ++ [':'] ++ randomValue))) with
    | Except.error _ => Except.error ()
    | Except.ok false => Except.ok CoreResult.denySig
    | Except.ok true =>
      if (match parseIntJS timestamp with
          | none => false
          | some t => decide (now - t > ttl)) then
        Except.ok CoreResult.denyExpired
      else Except.ok CoreResult.allow
  | _ => Except.ok CoreResult.denyFormat

/-- `verifyCSRFToken` (`config.ts:168-228`).  The session-token
comparison sits outside the `try`, so its `timingSafeEqual` length
exception escapes (`Except.error`); exceptions inside the `try` are
caught and converted to a `csrf_invalid` denial. -/
def verifyCSRFToken (hmac : Str → Str → Str) (dec : Str → Str)
    (secret : Str) (ttl : Int) (req : CsrfRequest) (now : Int) :
    Except Unit Outcome :=
  if ¬ truthy req.csrfHeader then
    Except.ok (clearSessionAndSendError req.session.isSome
      (str "CSRF token missing") CsrfCode.missing)
  else
    match req.session with
    | none =>
      Except.ok (clearSessionAndSendError false
        (str "No session found") CsrfCode.invalid)
    | some session =>
      if ¬ truthy session.csrfToken then
        Except.ok (clearSessionAndSendError true
          (str "No CSRF token in session") CsrfCode.invalid)
      else
        match timingSafeEqual (strBytes (req.csrfHeader.getD []))
          (strBytes (session.csrfToken.getD [])) with
        | Except.error e => Except.error e
        | Except.ok false =>
          Except.ok (clearSessionAndSendError true
            (str "CSRF token mismatch") CsrfCode.mismatch)
        | Except.ok true =>
          match verifyTokenCore hmac dec secret ttl
            (req.csrfHeader.getD []) now with
          | Except.error _ =>
            Except.ok (clearSessionAndSendError true
              (str "Invalid CSRF token") CsrfCode.invalid)
          | Except.ok CoreResult.denyFormat =>
            Except.ok (clearSessionAndSendError true
              (str "Invalid CSRF token format") CsrfCode.invalid)
          | Except.ok CoreResult.denySig =>
            Except.ok (clearSessionAndSendError true
              (str "Invalid CSRF token signature") CsrfCode.invalid)
          | Except.ok CoreResult.denyExpired =>
            Except.ok (clearSessionAndSendError true
              (str "CSRF token expired") CsrfCode.expired)
          | Except.ok CoreResult.allow => Except.ok allowOutcome

end Csrf

/-!
## Client request signer — `client/src/lib/apiSecurity.ts` (CSRF retry
variant)

`secureRequest` attaches the cookie-held CSRF token (lazily initialized
via `GET /api/csrf-init`), retries once after a 403 whose payload signals
`requiresReauth` or a `csrf_`-prefixed code, and has a `catch` path that
retries after a thrown fetch when an init promise is cached.  The module
globals (`initPromise`, `isRetrying`, the readable cookie) form the
`World`; network nondeterminism is an oracle of fetch results consumed in
call order, counting the fetches of the protected URL.
-/

namespace Client

/-- A settled `fetch` of the protected URL: either the promise rejected
(network error) or a response with the fields `secureRequest` reads. -/
structure MainResp where
  status : Nat
  requiresReauth : Bool
  code : Option Str
  parseFails : Bool
deriving DecidableEq, Repr

/-- One main-fetch result: `thrown` models a rejected fetch promise. -/
inductive MainResult where
  | thrown
  | resp (r : MainResp)
deriving DecidableEq, Repr

/-- Module-global state of `apiSecurity`: the readable `csrf-token`
cookie, the cached init promise (`none` = `null`; `some (some t)` =
resolved and cookie `t` was set; `some none` = rejected), and the
`isRetrying` flag. -/
structure World where
  cookie : Option Str
  initPromise : Option (Option Str)
  isRetry : Bool
deriving DecidableEq, Repr

/-- Fetch oracle: outcomes of `/api/csrf-init` calls (`some t` = 200 with
`Set-Cookie: csrf-token=t`; `none` = failure) and of protected-URL
fetches, plus a count of protected-URL fetches performed. -/
structure Oracle where
  initResults : List (Option Str)
  mainResults : List MainResult
  mainCalls : Nat
deriving DecidableEq, Repr

/-- Consume the next init-fetch outcome (failure when exhausted). -/
def takeInit (o : Oracle) : Option Str × Oracle :=
  match o.initResults with
  | [] => (none, o)
  | r :: rest => (r, { o with initResults := rest })

/-- Consume the next protected-URL fetch outcome and count the call. -/
def takeMain (o : Oracle) : MainResult × Oracle :=
  match o.mainResults with
  | [] => (MainResult.thrown, { o with mainCalls := o.mainCalls + 1 })
  | r :: rest =>
    (r, { o with mainResults := rest, mainCalls := o.mainCalls + 1 })

/-- `clearTokenCache`: nulls `initPromise`, resets `isRetrying`, and
expires the readable cookie. -/
def clearTokenCache (_w : World) : World :=
  { cookie := none, initPromise := none, isRetry := false }

/-- `initializeCSRF`: reuse a cached promise (awaiting a settled promise
re-yields its outcome without re-fetching), else perform the init fetch;
a 200 response sets the readable cookie. -/
def initializeCSRF (w : World) (o : Oracle) :
    Except Unit Unit × World × Oracle :=
  match w.initPromise with
  | some (some _) => (Except.ok (), w, o)
  | some none => (Except.error (), w, o)
  | none =>
    let (r, o1) := takeInit o
    match r with
    | some tok =>
      (Except.ok (),
        { w with initPromise := some (some tok), cookie := some tok }, o1)
    | none => (Except.error (), { w with initPromise := some none }, o1)

/-- `getCSRFToken`: cookie first, else initialize and re-read the cookie,
throwing when still absent. -/
def getCSRFToken (w : World) (o : Oracle) :
    Except Unit Str × World × Oracle :=
  match w.cookie with
  | some t => (Except.ok t, w, o)
  | none =>
    match initializeCSRF w o with
    | (Except.error e, w1, o1) => (Except.error e, w1, o1)
    | (Except.ok _, w1, o1) =>
      match w1.cookie with
      | some t => (Except.ok t, w1, o1)
      | none => (Except.error (), w1, o1)

/-- `generateSecurityHeaders`: the `X-CSRF-Token` header value. -/
def generateSecurityHeaders (w : World) (o : Oracle) :
    Except Unit Str × World × Oracle :=
  getCSRFToken w o

/-- `isCSRFError(response)`: status 403. -/
def isCSRFError (r : MainResp) : Bool := r.status = 403

/-- The parsed error payload check: `errorData.requiresReauth ||
errorData.code?.startsWith('csrf_')`; a body that fails to parse leaves
`errorData = {}` (both fields falsy). -/
def wantsReauth (r : MainResp) : Bool :=
  if r.parseFails then false
  else
    r.requiresReauth ||
      (match r.code with
       | some c => (str "csrf_").isPrefixOf c
       | none => false)

/-- The `catch` block of `secureRequest` (`apiSecurity.ts`, retry
variant): when not flagged as retrying and an init promise is cached,
clear the cache, regenerate headers and fetch the URL once more; the
`finally` resets the flag on every exit. -/
def catchBlock (w : World) (o : Oracle) :
    Except Unit MainResp × World × Oracle :=
  if ¬ w.isRetry ∧ w.initPromise.isSome then
    let w1 := { w with isRetry := true }
    let w2 := clearTokenCache w1
    match generateSecurityHeaders w2 o with
    | (Except.error _, w3, o3) =>
      (Except.error (), { w3 with isRetry := false }, o3)
    | (Except.ok _, w3, o3) =>
      let (r, o4) := takeMain o3
      match r with
      | MainResult.thrown =>
        (Except.error (), { w3 with isRetry := false }, o4)
      | MainResult.resp resp =>
        (Except.ok resp, { w3 with isRetry := false }, o4)
  else (Except.error (), w, o)

/-- `secureRequest` (retry variant): guard on `isRetrying`, attach
headers, fetch; on a 403 signalling reauth set the flag, clear the cache,
re-fetch once inside a `try`/`finally`; any exception in the `try` body
falls to `catchBlock` after the `finally` has reset the flag. -/
def secureRequest (w : World) (o : Oracle) :
    Except Unit MainResp × World × Oracle :=
  if w.isRetry then (Except.error (), w, o)
  else
    match generateSecurityHeaders w o with
    | (Except.error _, w1, o1) => catchBlock w1 o1
    | (Except.ok _, w1, o1) =>
      let (r1, o2) := takeMain o1
      match r1 with
      | MainResult.thrown => catchBlock w1 o2
      | MainResult.resp resp =>
        if isCSRFError resp then
          if wantsReauth resp then
            let w2 := { w1 with isRetry := true }
            let w3 := clearTokenCache w2
            match generateSecurityHeaders w3 o2 with
            | (Except.error _, w4, o4) =>
              catchBlock { w4 with isRetry := false } o4
            | (Except.ok _, w4, o4) =>
              let (r2, o5) := takeMain o4
              match r2 with
              | MainResult.thrown =>
                catchBlock { w4 with isRetry := false } o5
              | MainResult.resp resp2 =>
                (Except.ok resp2, { w4 with isRetry := false }, o5)
          else (Except.ok resp, w1, o2)
        else (Except.ok resp, w1, o2)

end Client

/-!
## Stream reassembler — `client/src/hooks/useCustomChat.ts`
(`handleChatRequest` chunk loop)

Each parsed `data:` chunk is folded into the per-response state
(`messages`, `accumulatedContent`, `accumulatedReasoning`,
`seenToolCallIds`, `toolMessagesByCallId`).  Tool-call fragments open
separate agent messages; content arriving with tool calls goes to the
last tool call of the chunk; content without tool calls accumulates into
the assistant message, updating it in place while it is the last list
element.
-/

namespace Stream

/-- Client message roles (`Message.role` in the chat types). -/
inductive Role where
  | user
  | assistant
  | agent
deriving DecidableEq, Repr

/-- A streamed tool-call fragment: `{id, function?: {name?}}`. -/
structure ToolCall where
  id : Str
  functionName : Option Str
deriving DecidableEq, Repr

/-- A client chat message with the fields the reassembler touches. -/
structure Message where
  role : Role
  content : Str
  reasoning : Option Str
  isToolMessage : Bool
  toolCalls : Option (List ToolCall)
deriving DecidableEq, Repr

/-- `delta` / `message` object of a stream chunk choice. -/
structure Delta where
  role : Option Str
  content : Option Str
  thinking : Option Str
  toolCalls : Option (List ToolCall)
deriving DecidableEq, Repr

/-- One element of `chunk.choices`. -/
structure Choice where
  delta : Option Delta
  message : Option Delta
deriving DecidableEq, Repr

/-- A parsed stream chunk. -/
structure Chunk where
  choices : List Choice
deriving DecidableEq, Repr

/-- Per-response accumulator state plus the message list. -/
structure ChatState where
  messages : List Message
  accumulatedContent : Str
  accumulatedReasoning : Str
  seenToolCallIds : List Str
  toolMessagesByCallId : List (Str × Str)
deriving DecidableEq, Repr

/-- JavaScript `Map.prototype.get` on the assoc-list model. -/
def mapLookup (m : List (Str × Str)) (k : Str) : Option Str :=
  match m with
  | [] => none
  | (k', v) :: rest => if k' = k then some v else mapLookup rest k

/-- JavaScript `Map.prototype.set`: overwrite in place or append. -/
def mapSet (m : List (Str × Str)) (k : Str) (v : Str) :
    List (Str × Str) :=
  match m with
  | [] => [(k, v)]
  | (k', v') :: rest =>
    if k' = k then (k, v) :: rest else (k', v') :: mapSet rest k v

/-- JavaScript `Set.prototype.add` on the list model. -/
def setAdd (s : List Str) (x : Str) : List Str :=
  if s.contains x then s else s ++ [x]

/-- `Array.prototype.findLastIndex` on a boolean predicate. -/
def findLastIndexP {α : Type} (p : α → Bool) : List α → Option Nat
  | [] => none
  | a :: as =>
    match findLastIndexP p as with
    | some i => some (i + 1)
    | none => if p a then some 0 else none

/-- The reverse scan-and-break of the tool-message update: replace the
last element satisfying `p` by its image under `f`. -/
def updateLastWhere {α : Type} (p : α → Bool) (f : α → α) :
    List α → List α
  | [] => []
  | m :: ms =>
    if ms.any p then m :: updateLastWhere p f ms
    else if p m then f m :: ms
    else m :: ms

/-- Whitespace for JavaScript `String.prototype.trim`. -/
def isWs (c : Char) : Bool := c = ' ' ∨ c = '\n' ∨ c = '\t' ∨ c = '\r'

/-- JavaScript `String.prototype.trim` (both ends). -/
def jsTrim (s : Str) : Str :=
  ((s.dropWhile isWs).reverse.dropWhile isWs).reverse

/-- The agent message opened for a fresh tool-call fragment:
`content = toolCall.function?.name || 'Tool call: ' + id`. -/
def mkAgentMessage (t : ToolCall) : Message :=
  { role := Role.agent
    content :=
      if truthy t.functionName then t.functionName.getD []
      else str "Tool call: " ++ t.id
    reasoning := none
    isToolMessage := true
    toolCalls := some [t] }

/-- Open one unseen tool call: record its id, map it to empty content,
and append its agent message. -/
def openOne (s : ChatState) (t : ToolCall) : ChatState :=
  { s with
    seenToolCallIds := setAdd s.seenToolCallIds t.id
    toolMessagesByCallId := mapSet s.toolMessagesByCallId t.id []
    messages := s.messages ++ [mkAgentMessage t] }

/-- `msg.role === 'assistant'`. -/
def isAssistant (m : Message) : Bool := m.role == Role.assistant

/-- The `assistantMessage` object built from the accumulators: content is
the accumulated content, reasoning is attached only when its trim is
nonempty. -/
def mkAssistantMessage (contentAcc reasoningAcc : Str) : Message :=
  { role := Role.assistant
    content := contentAcc
    reasoning :=
      if jsTrim reasoningAcc ≠ [] then some reasoningAcc else none
    isToolMessage := false
    toolCalls := none }

/-- The predicate locating the agent message of a tool-call id
(`msg.role === 'agent' && msg.is_tool_message &&
msg.tool_calls?.[0]?.id === lastToolCall.id`). -/
def agentMsgFor (callId : Str) (m : Message) : Bool :=
  m.role = Role.agent ∧ m.isToolMessage ∧
    ((m.toolCalls.bind List.head?).map ToolCall.id = some callId)

/-- `chunk.choices[0]?.delta?/message? ...` accessor chains. -/
def chunkDelta (ch : Chunk) : Option Delta :=
  ch.choices.head?.bind Choice.delta

/-- `chunk.choices[0]?.message? ...` accessor chain. -/
def chunkMessage (ch : Chunk) : Option Delta :=
  ch.choices.head?.bind Choice.message

/-- Folding one parsed chunk into the state — the body of the
`for (const line of lines)` loop of `handleChatRequest` after JSON
parsing (`useCustomChat.ts:104-213`). -/
def processChunk (s : ChatState) (ch : Chunk) : ChatState :=
  if ((chunkDelta ch).bind Delta.role = some (str "tool")) ∨
     ((chunkMessage ch).bind Delta.role = some (str "tool")) then s
  else
    let content :=
      jsOr ((chunkDelta ch).bind Delta.content)
        ((chunkMessage ch).bind Delta.content)
    let reasoningDelta :=
      jsOr ((chunkDelta ch).bind Delta.thinking)
        ((chunkMessage ch).bind Delta.thinking)
    let toolCallsDelta :=
      jsOrArr ((chunkDelta ch).bind Delta.toolCalls)
        ((chunkMessage ch).bind Delta.toolCalls)
    let s1 :=
      match toolCallsDelta with
      | none => s
      | some tcs =>
        let newToolCalls :=
          tcs.filter (fun t => ! s.seenToolCallIds.contains t.id)
        let s' := newToolCalls.foldl openOne s
        if content.isSome ∧ tcs.length > 0 then
          match tcs.getLast? with
          | some lastTc =>
            if (mapLookup s'.toolMessagesByCallId lastTc.id).isSome then
              let existing :=
                (mapLookup s'.toolMessagesByCallId lastTc.id).getD []
              let newContent := existing ++ content.getD []
              { s' with
                toolMessagesByCallId :=
                  mapSet s'.toolMessagesByCallId lastTc.id newContent
                messages :=
                  updateLastWhere (agentMsgFor lastTc.id)
                    (fun m => { m with content := newContent }) s'.messages }
            else s'
          | none => s'
        else s'
    match content with
    | none => s1
    | some c =>
      let s2 :=
        if toolCallsDelta = none then
          { s1 with accumulatedContent := s1.accumulatedContent ++ c }
        else s1
      let s3 :=
        match reasoningDelta with
        | some r =>
          { s2 with accumulatedReasoning := s2.accumulatedReasoning ++ r }
        | none => s2
      if (s3.accumulatedContent ≠ [] ∨ s3.accumulatedReasoning ≠ []) ∧
         toolCallsDelta = none then
        let assistantMessage : Message :=
          mkAssistantMessage s3.accumulatedContent s3.accumulatedReasoning
        let ms := s3.messages
        let msgs :=
          match findLastIndexP isAssistant ms with
          | some i =>
            if i = ms.length - 1 then ms.set i assistantMessage
            else ms ++ [assistantMessage]
          | none => ms ++ [assistantMessage]
        { s3 with messages := msgs }
      else s3

/-- Folding a whole chunk sequence, in arrival order. -/
def processChunks (s : ChatState) (chs : List Chunk) : ChatState :=
  chs.foldl processChunk s

/-- A fresh per-response state over an existing message list. -/
def initState (ms : List Message) : ChatState :=
  { messages := ms
    accumulatedContent := []
    accumulatedReasoning := []
    seenToolCallIds := []
    toolMessagesByCallId := [] }

/-- A pure content-delta chunk, as produced by the provider stream. -/
def contentChunk (c : Str) : Chunk :=
  { choices := [{ delta := some { role := none, content := some c,
                                  thinking := none, toolCalls := none },
                  message := none }] }

end Stream

/-!
## Concrete instances for evaluating the embeddings

External primitives (`createHmac`, base64, network responses) are
parameters of the embedded functions; the fixtures below give executable
instances with the properties the real primitives have (deterministic
digest without `:`; encode/decode inverse), used to exercise the theorems
on concrete requests.
-/

namespace Fix

/-- A stand-in keyed digest: deterministic, never empty, never contains
`:` (as a hex digest does not). -/
def fixHmac : Str → Str → Str :=
  fun _ payload => 'h' :: payload.filter (fun c => !(c == ':'))

/-- The secret used by the fixtures. -/
def sec : Str := str "test-secret"

/-- Signature of the fixture request, computed as the server does. -/
def sigA : Str :=
  fixHmac sec
    (Security.hmacPayload (str "POST") (str "/api/chat") (str "100")
      (str "n1") none)

/-- A well-formed signed request for the HMAC scheme. -/
def reqA : Security.HmacRequest :=
  { appId := some (str "mia-chat-app")
    timestamp := some (str "100")
    signature := some sigA
    nonce := some (str "n1")
    method := str "POST"
    url := str "/api/chat"
    body := none }

/-- A request with a wrong app id, denied by the authenticator. -/
def reqBadApp : Security.HmacRequest :=
  { reqA with appId := some (str "other-app") }

/-- A request whose timestamp header is not numeric. -/
def reqNaN : Security.HmacRequest :=
  { reqA with
    timestamp := some (str "notanumber")
    signature :=
      some (fixHmac sec
        (Security.hmacPayload (str "POST") (str "/api/chat")
          (str "notanumber") (str "n1") none)) }

/-- A well-formed signed request carrying a body. -/
def reqB : Security.HmacRequest :=
  { appId := some (str "mia-chat-app")
    timestamp := some (str "100")
    signature :=
      some (fixHmac sec
        (Security.hmacPayload (str "POST") (str "/api/chat") (str "100")
          (str "n1") (some (str "xyz"))))
    nonce := some (str "n1")
    method := str "POST"
    url := str "/api/chat"
    body := some (str "xyz") }

/-- A user message preceding the streamed response. -/
def userMsg : Stream.Message :=
  { role := Stream.Role.user
    content := str "hi"
    reasoning := none
    isToolMessage := false
    toolCalls := none }

/-- A tool-call fragment fixture. -/
def tc1 : Stream.ToolCall :=
  { id := str "t1", functionName := some (str "html_to_markdown") }

/-- A chunk carrying tool-call fragments and content together. -/
def toolContentChunk (tcs : List Stream.ToolCall) (c : Option Str) :
    Stream.Chunk :=
  { choices := [{ delta := some { role := none, content := c,
                                  thinking := none, toolCalls := some tcs },
                  message := none }] }

/-- A mid-response state in which tool call `t1` is already open: its id
is recorded, its content entry holds `"par"`, and its agent message was
already appended (the continuing-fragment scenario). -/
def sToolSeen : Stream.ChatState :=
  { messages := [userMsg, Stream.mkAgentMessage tc1]
    accumulatedContent := []
    accumulatedReasoning := []
    seenToolCallIds := [str "t1"]
    toolMessagesByCallId := [(str "t1", str "par")] }

/-- Client state before the C8 failing trace: a cookie is cached, no
init promise, not retrying. -/
def w8 : Client.World :=
  { cookie := some (str "t0"), initPromise := none, isRetry := false }

/-- A 403 denial that signals `requiresReauth`. -/
def deny403 : Client.MainResult :=
  Client.MainResult.resp
    { status := 403, requiresReauth := true, code := none,
      parseFails := false }

/-- A 200 success response. -/
def ok200 : Client.MainResp :=
  { status := 200, requiresReauth := false, code := none,
    parseFails := false }

/-- Network trace: first protected fetch is denied with
`requiresReauth`, the retried fetch throws, and a third fetch would
succeed; both init fetches succeed. -/
def o8 : Client.Oracle :=
  { initResults := [some (str "t1"), some (str "t2")]
    mainResults := [deny403, Client.MainResult.thrown,
                    Client.MainResult.resp ok200]
    mainCalls := 0 }

end Fix

/-!
## Helper lemmas: decimal rendering, parsing, splitting, comparison
-/

theorem digitChar_mem_digits (n : Nat) :
    digitChar n ∈ (['0', '1', '2', '3', '4', '5', '6', '7', '8', '9'] :
      List Char) := by
  unfold digitChar
  repeat' split
  all_goals decide

theorem digitChar_isDigit (n : Nat) : (digitChar n).isDigit = true := by
  unfold digitChar
  repeat' split
  all_goals decide

theorem digitVal_digitChar (n : Nat) (h : n < 10) :
    digitVal (digitChar n) = n := by
  unfold digitChar
  repeat' split
  all_goals (first | (subst_vars; decide) | omega | skip)
  all_goals (have : n = 9 := by omega)
  all_goals (subst this; decide)

theorem natToStrAux_ne_nil (fuel n : Nat) (hf : n < fuel) :
    natToStrAux fuel n ≠ [] := by
  cases fuel with
  | zero => omega
  | succ f =>
    rw [natToStrAux]
    split
    · simp
    · simp

theorem natToStr_ne_nil (n : Nat) : natToStr n ≠ [] :=
  natToStrAux_ne_nil (n + 1) n (by omega)

theorem natToStrAux_digits (fuel : Nat) :
    ∀ n, n < fuel → ∀ c ∈ natToStrAux fuel n, c.isDigit = true := by
  induction fuel with
  | zero => omega
  | succ f ih =>
    intro n hf c hc
    rw [natToStrAux] at hc
    revert hc
    split
    · intro hc
      simp only [List.mem_singleton] at hc
      subst hc
      exact digitChar_isDigit n
    · rename_i hge
      intro hc
      rcases List.mem_append.mp hc with h | h
      · exact ih (n / 10) (by omega) c h
      · simp only [List.mem_singleton] at h
        subst h
        exact digitChar_isDigit (n % 10)

theorem natToStr_digits (n : Nat) :
    ∀ c ∈ natToStr n, c.isDigit = true :=
  natToStrAux_digits (n + 1) n (by omega)

theorem isDigit_char_facts (c : Char) (h : c.isDigit = true) :
    c ≠ ':' ∧ c ≠ '-' ∧ c ≠ '+' ∧ (c == ' ') = false := by
  refine ⟨?_, ?_, ?_, ?_⟩
  · intro hc
    subst hc
    exact absurd h (by decide)
  · intro hc
    subst hc
    exact absurd h (by decide)
  · intro hc
    subst hc
    exact absurd h (by decide)
  · cases hc : c == ' ' with
    | false => rfl
    | true =>
      have hce := eq_of_beq hc
      subst hce
      exact absurd h (by decide)

theorem natToStr_no_colon (n : Nat) : ':' ∉ natToStr n := by
  intro h
  have := (isDigit_char_facts ':' (natToStr_digits n ':' h)).1
  exact this rfl

theorem digitsVal_append (xs : Str) (c : Char) :
    digitsVal (xs ++ [c]) = digitsVal xs * 10 + digitVal c := by
  simp [digitsVal, List.foldl_append]

theorem digitsVal_natToStrAux (fuel : Nat) :
    ∀ n, n < fuel → digitsVal (natToStrAux fuel n) = n := by
  induction fuel with
  | zero => omega
  | succ f ih =>
    intro n hf
    rw [natToStrAux]
    split
    · rename_i h
      simp [digitsVal, digitVal_digitChar n h]
    · rename_i h
      rw [digitsVal_append, ih (n / 10) (by omega),
        digitVal_digitChar (n % 10) (Nat.mod_lt n (by omega))]
      omega

theorem digitsVal_natToStr (n : Nat) : digitsVal (natToStr n) = n :=
  digitsVal_natToStrAux (n + 1) n (by omega)

theorem parseDigits_natToStr (n : Nat) :
    parseDigits (natToStr n) = some n := by
  unfold parseDigits
  rw [List.takeWhile_eq_self_iff.mpr (natToStr_digits n)]
  simp [natToStr_ne_nil n, digitsVal_natToStr n]

theorem parseIntJS_natToStr (n : Nat) :
    parseIntJS (natToStr n) = some (n : Int) := by
  obtain ⟨c, cs, hcc⟩ : ∃ c cs, natToStr n = c :: cs := by
    cases h : natToStr n with
    | nil => exact absurd h (natToStr_ne_nil n)
    | cons c cs => exact ⟨c, cs, rfl⟩
  have hcd := natToStr_digits n c (by rw [hcc]; exact List.mem_cons_self c cs)
  obtain ⟨-, hminus, hplus, hspace⟩ := isDigit_char_facts c hcd
  rw [hcc]
  simp only [parseIntJS, List.dropWhile_cons, hspace, Bool.false_eq_true,
    if_false]
  split
  · rename_i rest heq
    injection heq with h1 h2
    exact absurd h1 hminus
  · rename_i rest heq
    injection heq with h1 h2
    exact absurd h1 hplus
  · rw [← hcc, parseDigits_natToStr n]
    rfl

theorem splitOnChar_ne_nil (sep : Char) (s : Str) :
    splitOnChar sep s ≠ [] := by
  induction s with
  | nil => simp [splitOnChar]
  | cons c cs ih =>
    rw [splitOnChar]
    split
    · simp
    · split
      · simp
      · simp

theorem splitOnChar_no_sep (sep : Char) (a : Str) (h : sep ∉ a) :
    splitOnChar sep a = [a] := by
  induction a with
  | nil => rfl
  | cons c cs ih =>
    have hc : c ≠ sep := fun hh => h (hh ▸ List.mem_cons_self c cs)
    have hcs : sep ∉ cs := fun hh => h (List.mem_cons_of_mem c hh)
    rw [splitOnChar]
    simp only [hc, if_false]
    rw [ih hcs]

theorem splitOnChar_push (sep : Char) (a rest : Str) (h : sep ∉ a) :
    splitOnChar sep (a ++ sep :: rest) = a :: splitOnChar sep rest := by
  induction a with
  | nil =>
    simp only [List.nil_append]
    rw [splitOnChar]
    simp
  | cons c cs ih =>
    have hc : c ≠ sep := fun hh => h (hh ▸ List.mem_cons_self c cs)
    have hcs : sep ∉ cs := fun hh => h (List.mem_cons_of_mem c hh)
    simp only [List.cons_append]
    rw [splitOnChar]
    simp only [hc, if_false]
    rw [ih hcs]

theorem splitOnChar_three (a b c : Str) (ha : ':' ∉ a) (hb : ':' ∉ b)
    (hc : ':' ∉ c) :
    splitOnChar ':' (a ++ [':'] ++ b ++ [':'] ++ c) = [a, b, c] := by
  have h1 : a ++ [':'] ++ b ++ [':'] ++ c = a ++ ':' :: (b ++ ':' :: c) := by
    simp
  rw [h1, splitOnChar_push ':' a _ ha, splitOnChar_push ':' b _ hb,
    splitOnChar_no_sep ':' c hc]

theorem timingSafeEqual_self (b : List Nat) :
    timingSafeEqual b b = Except.ok true := by
  simp [timingSafeEqual]

theorem timingSafeEqual_ok_true (a b : List Nat)
    (h : timingSafeEqual a b = Except.ok true) : a = b := by
  unfold timingSafeEqual at h
  split at h
  · simp only [Except.ok.injEq] at h
    exact eq_of_beq h
  · exact absurd h (by simp)

theorem jsOr_some_of_ne_nil (c : Str) (hc : c ≠ []) (b : Option Str) :
    jsOr (some c) b = some c := by
  cases c with
  | nil => exact absurd rfl hc
  | cons x xs => rfl

/-!
## Helper lemmas: list machinery of the stream reassembler
-/

namespace Stream

theorem findLastIndexP_concat {α : Type} (p : α → Bool) (l : List α)
    (a : α) :
    findLastIndexP p (l ++ [a]) =
      if p a then some l.length else findLastIndexP p l := by
  induction l with
  | nil =>
    simp only [List.nil_append, List.length_nil]
    simp [findLastIndexP]
  | cons b bs ih =>
    simp only [List.cons_append, List.length_cons]
    rw [findLastIndexP]
    rw [ih]
    by_cases hpa : p a = true
    · simp [hpa]
    · simp only [hpa, Bool.false_eq_true, if_false]
      conv_rhs => rw [findLastIndexP]

theorem findLastIndexP_lt_length {α : Type} (p : α → Bool) (l : List α)
    (i : Nat) (h : findLastIndexP p l = some i) : i < l.length := by
  induction l generalizing i with
  | nil => exact absurd h (by rw [findLastIndexP]; simp)
  | cons b bs ih =>
    rw [findLastIndexP] at h
    revert h
    split
    · rename_i j hj
      intro h
      simp only [Option.some.injEq] at h
      subst h
      exact Nat.succ_lt_succ (ih j hj)
    · split
      · intro h
        simp only [Option.some.injEq] at h
        subst h
        simp
      · intro h
        exact absurd h (by simp)

theorem findLastIndexP_not_last {α : Type} (p : α → Bool) (l : List α)
    (m : α) (hm : l.getLast? = some m) (hp : p m = false) :
    findLastIndexP p l ≠ some (l.length - 1) := by
  induction l with
  | nil => exact absurd hm (by simp)
  | cons b bs ih =>
    cases bs with
    | nil =>
      simp only [List.getLast?_singleton, Option.some.injEq] at hm
      subst hm
      rw [findLastIndexP, findLastIndexP]
      simp [hp]
    | cons c cs =>
      have hm2 : (c :: cs).getLast? = some m := by
        rw [← hm, List.getLast?_cons_cons]
      have ih2 := ih hm2
      rw [findLastIndexP]
      split
      · rename_i j hj
        have hlt := findLastIndexP_lt_length p (c :: cs) j hj
        intro hcontra
        simp only [Option.some.injEq] at hcontra
        have : j = (c :: cs).length - 1 := by
          simp only [List.length_cons] at hcontra hlt ⊢
          omega
        exact ih2 (this ▸ hj)
      · split
        · intro hcontra
          simp only [Option.some.injEq, List.length_cons] at hcontra
          omega
        · simp

theorem set_concat_length {α : Type} (l : List α) (a x : α) :
    (l ++ [a]).set l.length x = l ++ [x] := by
  induction l with
  | nil => rfl
  | cons b bs ih => simp [List.set, ih]

theorem updateLastWhere_concat {α : Type} (p : α → Bool) (f : α → α)
    (l : List α) (a : α) (hp : p a = true) :
    updateLastWhere p f (l ++ [a]) = l ++ [f a] := by
  induction l with
  | nil =>
    simp only [List.nil_append]
    rw [updateLastWhere]
    simp [hp]
  | cons b bs ih =>
    simp only [List.cons_append]
    rw [updateLastWhere]
    have hany : (bs ++ [a]).any p = true := by
      simp [List.any_append, hp]
    rw [hany]
    simp only [if_true]
    rw [ih]

theorem updateLastWhere_filter {α : Type} (p q : α → Bool) (f : α → α)
    (l : List α) (h : ∀ x, p x = true → q x = false ∧ q (f x) = false) :
    (updateLastWhere p f l).filter q = l.filter q := by
  induction l with
  | nil => rfl
  | cons b bs ih =>
    rw [updateLastWhere]
    split
    · simp only [List.filter_cons]
      rw [ih]
    · split
      · rename_i hpb
        obtain ⟨h1, h2⟩ := h b hpb
        simp [List.filter_cons, h1, h2]
      · rfl

theorem mapLookup_mapSet_self (m : List (Str × Str)) (k v : Str) :
    mapLookup (mapSet m k v) k = some v := by
  induction m with
  | nil => simp [mapSet, mapLookup]
  | cons kv rest ih =>
    obtain ⟨k', v'⟩ := kv
    rw [mapSet]
    split
    · rw [mapLookup]
      simp
    · rw [mapLookup]
      rename_i hne
      simp only [hne, if_false]
      exact ih

/-- Full characterization of folding `openOne` over a list of fresh
tool calls. -/
theorem foldl_openOne (s : ChatState) (l : List ToolCall) :
    (l.foldl openOne s) =
      { messages := s.messages ++ l.map mkAgentMessage
        accumulatedContent := s.accumulatedContent
        accumulatedReasoning := s.accumulatedReasoning
        seenToolCallIds :=
          l.foldl (fun ss t => setAdd ss t.id) s.seenToolCallIds
        toolMessagesByCallId :=
          l.foldl (fun mm t => mapSet mm t.id []) s.toolMessagesByCallId } := by
  induction l generalizing s with
  | nil => simp
  | cons t ts ih =>
    simp only [List.foldl_cons, List.map_cons]
    rw [ih]
    simp [openOne]

theorem mapLookup_foldl_last (m : List (Str × Str)) (zs : List ToolCall)
    (tl : ToolCall) :
    mapLookup ((zs ++ [tl]).foldl (fun mm t => mapSet mm t.id []) m)
      tl.id = some [] := by
  rw [List.foldl_append]
  simp only [List.foldl_cons, List.foldl_nil]
  exact mapLookup_mapSet_self _ tl.id []

theorem contains_setAdd_self (s : List Str) (x : Str) :
    (setAdd s x).contains x = true := by
  unfold setAdd
  split
  · assumption
  · simp

theorem mapLookup_mapSet_ne (m : List (Str × Str)) (k k' v : Str)
    (h : k' ≠ k) : mapLookup (mapSet m k' v) k = mapLookup m k := by
  induction m with
  | nil => simp [mapSet, mapLookup, h]
  | cons kv rest ih =>
    obtain ⟨k0, v0⟩ := kv
    rw [mapSet]
    split
    · rename_i h0
      subst h0
      rw [mapLookup, mapLookup]
      simp [h]
    · rw [mapLookup, mapLookup]
      split
      · rfl
      · exact ih

theorem mapLookup_foldl_ne (l : List ToolCall) (m : List (Str × Str))
    (k : Str) (h : ∀ t ∈ l, t.id ≠ k) :
    mapLookup (l.foldl (fun mm t => mapSet mm t.id []) m) k =
      mapLookup m k := by
  induction l generalizing m with
  | nil => rfl
  | cons t ts ih =>
    simp only [List.foldl_cons]
    rw [ih _ (fun x hx => h x (List.mem_cons_of_mem t hx))]
    exact mapLookup_mapSet_ne m k t.id [] (h t (List.mem_cons_self t ts))

theorem filter_map_mkAgent (l : List ToolCall) :
    (l.map mkAgentMessage).filter isAssistant = [] := by
  rw [List.filter_eq_nil_iff]
  intro a ha
  simp only [List.mem_map] at ha
  obtain ⟨t, _, ht⟩ := ha
  rw [← ht]
  simp [isAssistant, mkAgentMessage]

theorem agentMsgFor_side (cid newContent : Str) :
    ∀ x, agentMsgFor cid x = true →
      isAssistant x = false ∧
      isAssistant
        ((fun m => { m with content := newContent }) x) = false := by
  intro x hx
  simp only [agentMsgFor, decide_eq_true_eq] at hx
  constructor
  · simp [isAssistant, hx.1]
  · simp [isAssistant, hx.1]

theorem filter_updateLastWhere_agent (cid nc : Str) (l : List Message) :
    (updateLastWhere (agentMsgFor cid)
        (fun m => { m with content := nc }) l).filter isAssistant =
      l.filter isAssistant :=
  updateLastWhere_filter _ _ _ l (agentMsgFor_side cid nc)

/-- The accumulator is never touched by a chunk that carries tool
calls, whatever its content field holds. -/
theorem processChunk_toolChunk_acc (s : ChatState) (co : Option Str)
    (tcs : List ToolCall) :
    (processChunk s (Fix.toolContentChunk tcs co)).accumulatedContent =
      s.accumulatedContent := by
  have e0 : jsOr none none = (none : Option Str) := rfl
  have e2 : jsOr (some []) none = (none : Option Str) := rfl
  rcases co with _ | c
  · unfold processChunk
    simp [Fix.toolContentChunk, chunkDelta, chunkMessage, jsOrArr, e0,
      foldl_openOne]
  · rcases c with _ | ⟨x, xs⟩
    · unfold processChunk
      simp [Fix.toolContentChunk, chunkDelta, chunkMessage, jsOrArr, e0,
        e2, foldl_openOne]
    · have e1 : jsOr (some (x :: xs)) none = some (x :: xs) := rfl
      unfold processChunk
      simp [Fix.toolContentChunk, chunkDelta, chunkMessage, jsOrArr,
        e0, e1, foldl_openOne]
      repeat' split
      all_goals simp [foldl_openOne]

/-- The assistant messages are never touched by a chunk that carries
tool calls, whatever its content field holds. -/
theorem processChunk_toolChunk_filter (s : ChatState) (co : Option Str)
    (tcs : List ToolCall) :
    (processChunk s (Fix.toolContentChunk tcs co)).messages.filter
        isAssistant = s.messages.filter isAssistant := by
  have e0 : jsOr none none = (none : Option Str) := rfl
  have e2 : jsOr (some []) none = (none : Option Str) := rfl
  rcases co with _ | c
  · unfold processChunk
    simp [Fix.toolContentChunk, chunkDelta, chunkMessage, jsOrArr, e0,
      foldl_openOne, List.filter_append, filter_map_mkAgent]
  · rcases c with _ | ⟨x, xs⟩
    · unfold processChunk
      simp [Fix.toolContentChunk, chunkDelta, chunkMessage, jsOrArr, e0,
        e2, foldl_openOne, List.filter_append, filter_map_mkAgent]
    · have e1 : jsOr (some (x :: xs)) none = some (x :: xs) := rfl
      unfold processChunk
      simp [Fix.toolContentChunk, chunkDelta, chunkMessage, jsOrArr,
        e0, e1, foldl_openOne, List.filter_append, filter_map_mkAgent,
        filter_updateLastWhere_agent]
      repeat' split
      all_goals simp [foldl_openOne, List.filter_append,
        filter_map_mkAgent, filter_updateLastWhere_agent]

/-- One-step evaluation of a tool-call chunk with nonempty content:
open the unseen fragments, then attribute the content to the last
fragment's id when its entry exists. -/
theorem processChunk_toolChunk_val (s : ChatState) (c : Str)
    (tcs : List ToolCall) (tl : ToolCall)
    (hc : c ≠ []) (hlast : tcs.getLast? = some tl) :
    processChunk s (Fix.toolContentChunk tcs (some c)) =
      (let s1 := (tcs.filter
        (fun t => ! s.seenToolCallIds.contains t.id)).foldl openOne s
       if (mapLookup s1.toolMessagesByCallId tl.id).isSome = true then
         { s1 with
           toolMessagesByCallId :=
             mapSet s1.toolMessagesByCallId tl.id
               ((mapLookup s1.toolMessagesByCallId tl.id).getD [] ++ c)
           messages :=
             updateLastWhere (agentMsgFor tl.id)
               (fun m => { m with content :=
                 (mapLookup s1.toolMessagesByCallId tl.id).getD [] ++ c })
               s1.messages }
       else s1) := by
  have e0 : jsOr none none = (none : Option Str) := rfl
  have e1 := jsOr_some_of_ne_nil c hc none
  have hlen : 0 < tcs.length := by
    cases tcs with
    | nil => exact absurd hlast (by simp)
    | cons a as => simp
  unfold processChunk
  simp [Fix.toolContentChunk, chunkDelta, chunkMessage, jsOrArr, e0, e1,
    hlast, hlen]

/-- One-step evaluation of a fresh tool-call fragment chunk with no
content: the agent message is appended and the id recorded. -/
theorem processChunk_toolChunk_none_val (s : ChatState) (tl : ToolCall)
    (hfresh : s.seenToolCallIds.contains tl.id = false) :
    processChunk s (Fix.toolContentChunk [tl] none) =
      { messages := s.messages ++ [mkAgentMessage tl]
        accumulatedContent := s.accumulatedContent
        accumulatedReasoning := s.accumulatedReasoning
        seenToolCallIds := setAdd s.seenToolCallIds tl.id
        toolMessagesByCallId :=
          mapSet s.toolMessagesByCallId tl.id [] } := by
  have e0 : jsOr none none = (none : Option Str) := rfl
  have hmemn : tl.id ∉ s.seenToolCallIds := by simpa using hfresh
  unfold processChunk
  simp [Fix.toolContentChunk, chunkDelta, chunkMessage, jsOrArr, e0,
    hmemn, openOne]

end Stream

/-!
## Helper lemmas: the HMAC authenticator
-/

theorem truthy_of_ne_nil (a : Str) (h : a ≠ []) :
    truthy (some a) = true := by
  cases a with
  | nil => exact absurd rfl h
  | cons c cs => rfl

namespace Security

/-- Inversion of an accepted `verifyRequest` call: all four headers were
present and truthy, the app id matched, the timestamp was fresh, the
nonce was new, the signature bytes matched the recomputed digest, and
the nonce was recorded. -/
theorem verifyRequest_accepted (hmac : Str → Str → Str) (secret : Str)
    (req : HmacRequest) (now : Int) (ns : List Str) (r : HmacResult)
    (h : verifyRequest hmac secret req now ns = Except.ok r)
    (hv : r.valid = true) :
    truthy req.appId = true ∧ truthy req.timestamp = true ∧
    truthy req.signature = true ∧ truthy req.nonce = true ∧
    req.appId.getD [] = APP_ID ∧
    timestampStale now (req.timestamp.getD []) = false ∧
    ns.contains (req.nonce.getD []) = false ∧
    strBytes (req.signature.getD []) =
      strBytes (hmac secret
        (hmacPayload req.method req.url (req.timestamp.getD [])
          (req.nonce.getD []) req.body)) ∧
    r = ⟨true, none, ns ++ [req.nonce.getD []]⟩ := by
  unfold verifyRequest at h
  split at h
  · simp only [Except.ok.injEq] at h
    rw [← h] at hv
    exact absurd hv (by simp)
  · rename_i htr
    rw [not_not] at htr
    obtain ⟨h1, h2, h3, h4⟩ := htr
    refine ⟨h1, h2, h3, h4, ?_⟩
    split at h
    · simp only [Except.ok.injEq] at h
      rw [← h] at hv
      exact absurd hv (by simp)
    · rename_i happ
      rw [not_not] at happ
      refine ⟨happ, ?_⟩
      split at h
      · simp only [Except.ok.injEq] at h
        rw [← h] at hv
        exact absurd hv (by simp)
      · rename_i hstale
        refine ⟨by simpa using hstale, ?_⟩
        split at h
        · simp only [Except.ok.injEq] at h
          rw [← h] at hv
          exact absurd hv (by simp)
        · rename_i hcont
          refine ⟨by simpa using hcont, ?_⟩
          split at h
          · exact absurd h (by simp)
          · simp only [Except.ok.injEq] at h
            rw [← h] at hv
            exact absurd hv (by simp)
          · rename_i hts
            simp only [Except.ok.injEq] at h
            exact ⟨timingSafeEqual_ok_true _ _ hts, h.symm⟩

/-- Every `false` return of `verifyRequest` has already sent a 401
reply. -/
theorem verifyRequest_denied_sent (hmac : Str → Str → Str) (secret : Str)
    (req : HmacRequest) (now : Int) (ns : List Str) (r : HmacResult)
    (h : verifyRequest hmac secret req now ns = Except.ok r)
    (hv : r.valid = false) : r.sent.isSome = true := by
  unfold verifyRequest at h
  split at h
  · simp only [Except.ok.injEq] at h
    rw [← h]
    rfl
  · split at h
    · simp only [Except.ok.injEq] at h
      rw [← h]
      rfl
    · split at h
      · simp only [Except.ok.injEq] at h
        rw [← h]
        rfl
      · split at h
        · simp only [Except.ok.injEq] at h
          rw [← h]
          rfl
        · split at h
          · exact absurd h (by simp)
          · simp only [Except.ok.injEq] at h
            rw [← h]
            rfl
          · simp only [Except.ok.injEq] at h
            rw [← h] at hv
            exact absurd hv (by simp)

/-- Reduction of `verifyRequest` once the header, app-id and freshness
checks are known to pass: only the nonce and signature checks remain. -/
theorem verifyRequest_reduce (hmac : Str → Str → Str) (secret : Str)
    (a t g n m u : Str) (b : Option Str) (now : Int) (ns : List Str)
    (ha : a ≠ []) (ht : t ≠ []) (hg : g ≠ []) (hn : n ≠ [])
    (happ : a = APP_ID) (hstale : timestampStale now t = false) :
    verifyRequest hmac secret ⟨some a, some t, some g, some n, m, u, b⟩
      now ns =
      if ns.contains n then
        Except.ok ⟨false, some HmacError.nonceUsed, ns⟩
      else
        match timingSafeEqual (strBytes g)
          (strBytes (hmac secret (hmacPayload m u t n b))) with
        | Except.error _ => Except.error ()
        | Except.ok false =>
          Except.ok ⟨false, some HmacError.invalidSignature, ns⟩
        | Except.ok true => Except.ok ⟨true, none, ns ++ [n]⟩ := by
  unfold verifyRequest
  rw [if_neg (not_not_intro
    ⟨truthy_of_ne_nil a ha, truthy_of_ne_nil t ht,
     truthy_of_ne_nil g hg, truthy_of_ne_nil n hn⟩)]
  dsimp only [Option.getD_some]
  rw [if_neg (not_not_intro happ)]
  rw [if_neg (by simp [hstale])]

end Security

/-!
## Claim C1 — denied requests never reach the protected handler
-/

/-- C1: for every POST to `/api/chat` that the HMAC authenticator denies
(`verifyRequest` returns `false`), the preHandler hook has already sent a
reply, and the route pipeline therefore skips the handler: the handler
ran flag is `false` in the dispatch outcome. -/
theorem claim_C1_denied_request_never_reaches_handler
    (hmac : Str → Str → Str) (secret : Str) (req : Security.HmacRequest)
    (now : Int) (ns : List Str) (r : Security.HmacResult)
    (hmeth : req.method = str "POST") (hurl : req.url = str "/api/chat")
    (h : Security.verifyRequest hmac secret req now ns = Except.ok r)
    (hdeny : r.valid = false) :
    r.sent.isSome = true ∧
    Chat.runChatRoute hmac secret req now ns =
      Except.ok ⟨false, r.sent, r.nonces⟩ := by
  have hs :=
    Security.verifyRequest_denied_sent hmac secret req now ns r h hdeny
  refine ⟨hs, ?_⟩
  obtain ⟨e, he⟩ := Option.isSome_iff_exists.mp hs
  unfold Chat.runChatRoute
  rw [if_pos ⟨hmeth, hurl⟩, h]
  simp [he]

/-- C1 witness: a request with a wrong app id is denied and the chat
handler is skipped. -/
theorem claim_C1_witness :
    (some Security.HmacError.invalidAppId :
      Option Security.HmacError).isSome = true ∧
    Chat.runChatRoute Fix.fixHmac Fix.sec Fix.reqBadApp 100 [] =
      Except.ok ⟨false, some Security.HmacError.invalidAppId, []⟩ :=
  claim_C1_denied_request_never_reaches_handler Fix.fixHmac Fix.sec
    Fix.reqBadApp 100 []
    ⟨false, some Security.HmacError.invalidAppId, []⟩ rfl rfl rfl rfl

/-!
## Claim C3 — nonce replay rejection
-/

/-- C3: a request accepted by `verifyRequest` records its nonce in the
used-nonce set, and re-presenting the identical headers against the
updated set (at any time passing the freshness check) is denied by the
nonce check. -/
theorem claim_C3_nonce_replay_rejected
    (hmac : Str → Str → Str) (secret : Str) (req : Security.HmacRequest)
    (now now' : Int) (ns : List Str) (r : Security.HmacResult)
    (h : Security.verifyRequest hmac secret req now ns = Except.ok r)
    (hv : r.valid = true)
    (hfresh :
      Security.timestampStale now' (req.timestamp.getD []) = false) :
    r.nonces.contains (req.nonce.getD []) = true ∧
    Security.verifyRequest hmac secret req now' r.nonces =
      Except.ok ⟨false, some Security.HmacError.nonceUsed, r.nonces⟩ := by
  obtain ⟨h1, h2, h3, h4, happ, _, _, _, hr⟩ :=
    Security.verifyRequest_accepted hmac secret req now ns r h hv
  subst hr
  constructor
  · simp
  · unfold Security.verifyRequest
    rw [if_neg (not_not_intro ⟨h1, h2, h3, h4⟩)]
    rw [if_neg (not_not_intro happ)]
    rw [if_neg (by simp [hfresh])]
    rw [if_pos (by simp)]

/-- C3 witness: the fixture request is accepted once, and replaying the
identical headers against the updated nonce set is denied. -/
theorem claim_C3_witness :
    ([str "n1"] : List Str).contains (Fix.reqA.nonce.getD []) = true ∧
    Security.verifyRequest Fix.fixHmac Fix.sec Fix.reqA 100 [str "n1"] =
      Except.ok
        ⟨false, some Security.HmacError.nonceUsed, [str "n1"]⟩ :=
  claim_C3_nonce_replay_rejected Fix.fixHmac Fix.sec Fix.reqA 100 100 []
    ⟨true, none, [str "n1"]⟩ rfl rfl rfl

/-!
## Claim C4 — the verified signature covers method:path:timestamp:nonce[:body]
-/

/-- C4: for every accepted request, the presented signature's bytes equal
the keyed digest of `method:path:timestamp:nonce:body` when a (truthy)
body is present, and of `method:path:timestamp:nonce` with no trailing
segment when the body is absent. -/
theorem claim_C4_signature_covers_payload
    (hmac : Str → Str → Str) (secret : Str) (req : Security.HmacRequest)
    (now : Int) (ns : List Str) (r : Security.HmacResult)
    (h : Security.verifyRequest hmac secret req now ns = Except.ok r)
    (hv : r.valid = true) :
    (∀ b, req.body = some b → b ≠ [] →
      strBytes (req.signature.getD []) =
        strBytes (hmac secret
          (req.method ++ [':'] ++ req.url ++ [':'] ++
            req.timestamp.getD [] ++ [':'] ++ req.nonce.getD [] ++
            ([':'] ++ b)))) ∧
    (req.body = none →
      strBytes (req.signature.getD []) =
        strBytes (hmac secret
          (req.method ++ [':'] ++ req.url ++ [':'] ++
            req.timestamp.getD [] ++ [':'] ++ req.nonce.getD []))) := by
  obtain ⟨_, _, _, _, _, _, _, hbytes, _⟩ :=
    Security.verifyRequest_accepted hmac secret req now ns r h hv
  constructor
  · intro b hb hbne
    rw [hbytes]
    unfold Security.hmacPayload
    rw [hb]
    simp [hbne]
  · intro hb
    rw [hbytes]
    unfold Security.hmacPayload
    rw [hb]
    simp

/-- C4 witness: the accepted body-carrying fixture request's signature is
the digest over the payload with the body segment, and the body-less
fixture's over the payload without it. -/
theorem claim_C4_witness :
    strBytes (Fix.reqB.signature.getD []) =
      strBytes (Fix.fixHmac Fix.sec
        (str "POST" ++ [':'] ++ str "/api/chat" ++ [':'] ++ str "100" ++
          [':'] ++ str "n1" ++ ([':'] ++ str "xyz"))) ∧
    strBytes (Fix.reqA.signature.getD []) =
      strBytes (Fix.fixHmac Fix.sec
        (str "POST" ++ [':'] ++ str "/api/chat" ++ [':'] ++ str "100" ++
          [':'] ++ str "n1")) :=
  ⟨(claim_C4_signature_covers_payload Fix.fixHmac Fix.sec Fix.reqB 100 []
      ⟨true, none, [str "n1"]⟩ rfl rfl).1 (str "xyz") rfl (by decide),
   (claim_C4_signature_covers_payload Fix.fixHmac Fix.sec Fix.reqA 100 []
      ⟨true, none, [str "n1"]⟩ rfl rfl).2 rfl⟩

/-!
## Claim C9 — non-numeric timestamps bypass the freshness check
-/

/-- C9: when the `x-timestamp` header does not parse (`parseInt` yields
`NaN`), the freshness comparison is `false` and can never reject: the
timestamp-invalid reply is unreachable, and verification proceeds to the
nonce and signature checks. -/
theorem claim_C9_nan_timestamp_skips_freshness
    (hmac : Str → Str → Str) (secret : Str) (now : Int) (ns : List Str)
    (a t g n m u : Str) (b : Option Str)
    (ha : a ≠ []) (ht : t ≠ []) (hg : g ≠ []) (hn : n ≠ [])
    (happ : a = Security.APP_ID) (hnan : parseIntJS t = none) :
    (∀ r, Security.verifyRequest hmac secret
        ⟨some a, some t, some g, some n, m, u, b⟩ now ns = Except.ok r →
      r.sent ≠ some Security.HmacError.invalidTimestamp) ∧
    (ns.contains n = true →
      Security.verifyRequest hmac secret
        ⟨some a, some t, some g, some n, m, u, b⟩ now ns =
        Except.ok ⟨false, some Security.HmacError.nonceUsed, ns⟩) ∧
    (ns.contains n = false →
      strBytes g = strBytes (hmac secret (Security.hmacPayload m u t n b)) →
      Security.verifyRequest hmac secret
        ⟨some a, some t, some g, some n, m, u, b⟩ now ns =
        Except.ok ⟨true, none, ns ++ [n]⟩) := by
  have hstale : Security.timestampStale now t = false := by
    unfold Security.timestampStale
    rw [hnan]
  have hred := Security.verifyRequest_reduce hmac secret a t g n m u b
    now ns ha ht hg hn happ hstale
  refine ⟨?_, ?_, ?_⟩
  · intro r hr
    rw [hred] at hr
    by_cases hc : ns.contains n = true
    · rw [if_pos hc] at hr
      simp only [Except.ok.injEq] at hr
      rw [← hr]
      simp
    · rw [if_neg hc] at hr
      revert hr
      split
      · intro hr
        exact absurd hr (by simp)
      · intro hr
        simp only [Except.ok.injEq] at hr
        rw [← hr]
        simp
      · intro hr
        simp only [Except.ok.injEq] at hr
        rw [← hr]
        simp
  · intro hc
    rw [hred, if_pos hc]
  · intro hc hsig
    rw [hred, if_neg (by rw [hc]; simp), hsig, timingSafeEqual_self]

/-- C9 witness: the fixture request with timestamp `"notanumber"` is not
rejected for freshness even at a distant clock value; with its nonce
already used it is denied by the nonce check. -/
theorem claim_C9_witness :
    Security.verifyRequest Fix.fixHmac Fix.sec
      ⟨some (str "mia-chat-app"), some (str "notanumber"),
       some (str "sig"), some (str "n1"), str "POST", str "/api/chat",
       none⟩ 999999999999 [str "n1"] =
      Except.ok
        ⟨false, some Security.HmacError.nonceUsed, [str "n1"]⟩ :=
  (claim_C9_nan_timestamp_skips_freshness Fix.fixHmac Fix.sec
    999999999999 [str "n1"] (str "mia-chat-app") (str "notanumber")
    (str "sig") (str "n1") (str "POST") (str "/api/chat") none
    (by decide) (by decide) (by decide) (by decide) rfl
    (by decide)).2.1 (by decide)

/-!
## Claim C10 — length-mismatched comparisons throw instead of denying
-/

/-- C10: when the presented signature (HMAC scheme) or the header token
(CSRF scheme) has a byte length different from the server-side expected
value, `timingSafeEqual` throws: the HMAC verifier exits with an
exception instead of the invalid-signature reply, and in the CSRF
verifier the session-token comparison sits outside the `try`, so the
exception escapes the verifier. -/
theorem claim_C10_length_mismatch_throws :
    (∀ (hmac : Str → Str → Str) (secret : Str) (now : Int)
       (ns : List Str) (a t g n m u : Str) (b : Option Str),
      a ≠ [] → t ≠ [] → g ≠ [] → n ≠ [] →
      a = Security.APP_ID →
      Security.timestampStale now t = false →
      ns.contains n = false →
      (strBytes g).length ≠
        (strBytes (hmac secret (Security.hmacPayload m u t n b))).length →
      Security.verifyRequest hmac secret
        ⟨some a, some t, some g, some n, m, u, b⟩ now ns =
        Except.error ()) ∧
    (∀ (hmac : Str → Str → Str) (dec : Str → Str) (secret : Str)
       (ttl now : Int) (ct st : Str),
      ct ≠ [] → st ≠ [] →
      (strBytes ct).length ≠ (strBytes st).length →
      Csrf.verifyCSRFToken hmac dec secret ttl
        ⟨some ct, some ⟨some st⟩⟩ now = Except.error ()) := by
  constructor
  · intro hmac secret now ns a t g n m u b ha ht hg hn happ hstale hc hlen
    rw [Security.verifyRequest_reduce hmac secret a t g n m u b now ns
      ha ht hg hn happ hstale]
    rw [if_neg (by rw [hc]; simp)]
    have : timingSafeEqual (strBytes g)
        (strBytes (hmac secret (Security.hmacPayload m u t n b))) =
        Except.error () := by
      unfold timingSafeEqual
      rw [if_neg hlen]
    rw [this]
  · intro hmac dec secret ttl now ct st hct hst hlen
    unfold Csrf.verifyCSRFToken
    rw [if_neg (not_not_intro (truthy_of_ne_nil ct hct))]
    simp only [Option.getD_some]
    rw [if_neg (not_not_intro (truthy_of_ne_nil st hst))]
    have : timingSafeEqual (strBytes ct) (strBytes st) =
        Except.error () := by
      unfold timingSafeEqual
      rw [if_neg hlen]
    rw [this]

/-- C10 witness: a short signature makes the HMAC verifier throw, and a
header token shorter than the session token makes the CSRF verifier
throw. -/
theorem claim_C10_witness :
    Security.verifyRequest Fix.fixHmac Fix.sec
      ⟨some (str "mia-chat-app"), some (str "100"), some (str "x"),
       some (str "n1"), str "POST", str "/api/chat", none⟩ 100 [] =
      Except.error () ∧
    Csrf.verifyCSRFToken Fix.fixHmac id Fix.sec Csrf.TOKEN_EXPIRY
      ⟨some (str "ab"), some ⟨some (str "abc")⟩⟩ 5 = Except.error () :=
  ⟨claim_C10_length_mismatch_throws.1 Fix.fixHmac Fix.sec 100 []
    (str "mia-chat-app") (str "100") (str "x") (str "n1") (str "POST")
    (str "/api/chat") none (by decide) (by decide) (by decide)
    (by decide) rfl (by decide) (by decide) (by decide),
   claim_C10_length_mismatch_throws.2 Fix.fixHmac id Fix.sec
    Csrf.TOKEN_EXPIRY 5 (str "ab") (str "abc") (by decide) (by decide)
    (by decide)⟩

/-!
## Claim C5 — every CSRF denial clears both cookies and the session
-/

/-- C5: every `false` return of `verifyCSRFToken` — whichever sub-check
failed — went through `clearSessionAndSendError`: both the `csrf-token`
and `sessionId` cookies are cleared, the session is destroyed exactly
when one existed, and a 403 reply was sent. -/
theorem claim_C5_denial_clears_session_and_cookies
    (hmac : Str → Str → Str) (dec : Str → Str) (secret : Str)
    (ttl : Int) (req : Csrf.CsrfRequest) (now : Int) (r : Csrf.Outcome)
    (h : Csrf.verifyCSRFToken hmac dec secret ttl req now = Except.ok r)
    (hdeny : r.allowed = false) :
    r.clearedCsrfCookie = true ∧ r.clearedSessionCookie = true ∧
    r.sessionDestroyed = req.session.isSome ∧ r.sent.isSome = true := by
  unfold Csrf.verifyCSRFToken at h
  split at h
  · simp only [Except.ok.injEq] at h
    rw [← h]
    simp [Csrf.clearSessionAndSendError]
  · split at h
    · rename_i heq
      simp only [Except.ok.injEq] at h
      rw [← h, heq]
      simp [Csrf.clearSessionAndSendError]
    · rename_i s heq
      split at h
      · simp only [Except.ok.injEq] at h
        rw [← h, heq]
        simp [Csrf.clearSessionAndSendError]
      · split at h
        · exact absurd h (by simp)
        · simp only [Except.ok.injEq] at h
          rw [← h, heq]
          simp [Csrf.clearSessionAndSendError]
        · split at h
          · simp only [Except.ok.injEq] at h
            rw [← h, heq]
            simp [Csrf.clearSessionAndSendError]
          · simp only [Except.ok.injEq] at h
            rw [← h, heq]
            simp [Csrf.clearSessionAndSendError]
          · simp only [Except.ok.injEq] at h
            rw [← h, heq]
            simp [Csrf.clearSessionAndSendError]
          · simp only [Except.ok.injEq] at h
            rw [← h, heq]
            simp [Csrf.clearSessionAndSendError]
          · simp only [Except.ok.injEq] at h
            rw [← h] at hdeny
            exact absurd hdeny (by simp [Csrf.allowOutcome])

/-- C5 witness: a request with no CSRF header and no session is denied
with both cookies cleared (and no session existed to destroy). -/
theorem claim_C5_witness :
    (Csrf.clearSessionAndSendError false (str "CSRF token missing")
      Csrf.CsrfCode.missing).clearedCsrfCookie = true ∧
    (Csrf.clearSessionAndSendError false (str "CSRF token missing")
      Csrf.CsrfCode.missing).clearedSessionCookie = true ∧
    (Csrf.clearSessionAndSendError false (str "CSRF token missing")
      Csrf.CsrfCode.missing).sessionDestroyed =
      (Csrf.CsrfRequest.mk none none).session.isSome ∧
    (Csrf.clearSessionAndSendError false (str "CSRF token missing")
      Csrf.CsrfCode.missing).sent.isSome = true :=
  claim_C5_denial_clears_session_and_cookies Fix.fixHmac id Fix.sec
    Csrf.TOKEN_EXPIRY ⟨none, none⟩ 0
    (Csrf.clearSessionAndSendError false (str "CSRF token missing")
      Csrf.CsrfCode.missing) rfl rfl

/-!
## Claim C2 — issue/verify round trip and expiry
-/

/-- C2: a token issued by `generateCSRFToken` and stored in the session
verifies successfully when the verification time equals the issuance
time, and is denied with the expiry error at every time strictly past
`timestamp + ttl`.  The digest and base64 parameters are constrained
exactly as the real primitives behave: hex digests contain no `:`, the
encoded token is nonempty, and decode inverts encode. -/
theorem claim_C2_issue_verify_roundtrip
    (hmac : Str → Str → Str) (enc dec : Str → Str) (secret : Str)
    (ttl : Int) (tN : Nat) (rand : Str)
    (httl : 0 ≤ ttl)
    (hrand : ':' ∉ rand)
    (hsig : ':' ∉ hmac secret (natToStr tN ++ [':'] ++ rand))
    (henc : Csrf.generateCSRFToken hmac enc secret tN rand ≠ [])
    (hdec : dec (Csrf.generateCSRFToken hmac enc secret tN rand) =
      natToStr tN ++ [':'] ++ rand ++ [':'] ++
        hmac secret (natToStr tN ++ [':'] ++ rand)) :
    Csrf.verifyCSRFToken hmac dec secret ttl
      ⟨some (Csrf.generateCSRFToken hmac enc secret tN rand),
       some ⟨some (Csrf.generateCSRFToken hmac enc secret tN rand)⟩⟩
      (tN : Int) = Except.ok Csrf.allowOutcome ∧
    (∀ now' : Int, (tN : Int) + ttl < now' →
      Csrf.verifyCSRFToken hmac dec secret ttl
        ⟨some (Csrf.generateCSRFToken hmac enc secret tN rand),
         some ⟨some (Csrf.generateCSRFToken hmac enc secret tN rand)⟩⟩
        now' =
        Except.ok (Csrf.clearSessionAndSendError true
          (str "CSRF token expired") Csrf.CsrfCode.expired)) := by
  have hcore : ∀ now : Int,
      Csrf.verifyTokenCore hmac dec secret ttl
        (Csrf.generateCSRFToken hmac enc secret tN rand) now =
      if now - (tN : Int) > ttl then Except.ok Csrf.CoreResult.denyExpired
      else Except.ok Csrf.CoreResult.allow := by
    intro now
    unfold Csrf.verifyTokenCore
    rw [hdec]
    have hsplit := splitOnChar_three (natToStr tN) rand
      (hmac secret (natToStr tN ++ [':'] ++ rand))
      (natToStr_no_colon tN) hrand hsig
    rw [hsplit]
    dsimp only
    rw [timingSafeEqual_self]
    rw [parseIntJS_natToStr]
    by_cases hx : now - (tN : Int) > ttl
    · rw [if_pos hx]
      simp [hx]
    · rw [if_neg hx]
      simp [hx]
  constructor
  · unfold Csrf.verifyCSRFToken
    rw [if_neg (not_not_intro (truthy_of_ne_nil _ henc))]
    dsimp only [Option.getD_some]
    rw [if_neg (not_not_intro (truthy_of_ne_nil _ henc))]
    rw [timingSafeEqual_self]
    rw [hcore]
    rw [if_neg (by omega)]
  · intro now' hlt
    unfold Csrf.verifyCSRFToken
    rw [if_neg (not_not_intro (truthy_of_ne_nil _ henc))]
    dsimp only [Option.getD_some]
    rw [if_neg (not_not_intro (truthy_of_ne_nil _ henc))]
    rw [timingSafeEqual_self]
    rw [hcore]
    rw [if_pos (by omega)]

/-- C2 witness: with identity base64 and a colon-free digest, the token
issued at time 5 verifies at time 5 and is denied as expired at time 9
with ttl 3. -/
theorem claim_C2_witness :
    Csrf.verifyCSRFToken Fix.fixHmac id Fix.sec 3
      ⟨some (Csrf.generateCSRFToken Fix.fixHmac id Fix.sec 5 (str "ab")),
       some ⟨some (Csrf.generateCSRFToken Fix.fixHmac id Fix.sec 5
         (str "ab"))⟩⟩ ((5 : Nat) : Int) = Except.ok Csrf.allowOutcome ∧
    Csrf.verifyCSRFToken Fix.fixHmac id Fix.sec 3
      ⟨some (Csrf.generateCSRFToken Fix.fixHmac id Fix.sec 5 (str "ab")),
       some ⟨some (Csrf.generateCSRFToken Fix.fixHmac id Fix.sec 5
         (str "ab"))⟩⟩ 9 =
      Except.ok (Csrf.clearSessionAndSendError true
        (str "CSRF token expired") Csrf.CsrfCode.expired) := by
  have h := claim_C2_issue_verify_roundtrip Fix.fixHmac id id Fix.sec 3 5
    (str "ab") (by decide) (by decide) (by decide) (by decide) (by decide)
  exact ⟨h.1, h.2 9 (by decide)⟩

/-!
## Claims C6 and C7 — stream reassembly
-/

/-- C6: two consecutive content-delta chunks with no tool calls, starting
from a fresh per-response accumulator over a message list not ending in
an assistant message, fold into exactly one appended assistant message
holding the concatenation `"Hello"` — the second delta updates the
message in place instead of appending a second one. -/
theorem claim_C6_stream_in_place_update (ms : List Stream.Message)
    (hlast : ∀ m, ms.getLast? = some m → m.role ≠ Stream.Role.assistant) :
    (Stream.processChunks (Stream.initState ms)
        [Stream.contentChunk (str "Hel"),
         Stream.contentChunk (str "lo")]).messages =
      ms ++ [Stream.mkAssistantMessage (str "Hello") []] := by
  have hni : ∀ i, Stream.findLastIndexP Stream.isAssistant ms = some i →
      i ≠ ms.length - 1 := by
    intro i hi
    cases hms : ms.getLast? with
    | none =>
      cases ms with
      | nil => exact absurd hi (by rw [Stream.findLastIndexP]; simp)
      | cons a as => simp [List.getLast?] at hms
    | some m =>
      have hp : Stream.isAssistant m = false := by
        have := hlast m hms
        simp [Stream.isAssistant]
        exact this
      intro hcontra
      exact Stream.findLastIndexP_not_last Stream.isAssistant ms m hms hp
        (hcontra ▸ hi)
  have e0 : jsOr none none = (none : Option Str) := rfl
  have e1 : jsOr (some (str "Hel")) none = some (str "Hel") := rfl
  have e2 : str "Hel" ≠ [] := by decide
  have hstep1 : Stream.processChunk (Stream.initState ms)
      (Stream.contentChunk (str "Hel")) =
      { messages := ms ++ [Stream.mkAssistantMessage (str "Hel") []]
        accumulatedContent := str "Hel"
        accumulatedReasoning := []
        seenToolCallIds := []
        toolMessagesByCallId := [] } := by
    unfold Stream.processChunk
    simp [Stream.contentChunk, Stream.chunkDelta, Stream.chunkMessage,
      Stream.initState, jsOrArr, e0, e1, e2]
    cases hfind : Stream.findLastIndexP Stream.isAssistant ms with
    | none => simp [hfind]
    | some i => simp [hfind, hni i hfind]
  have e3 : jsOr (some (str "lo")) none = some (str "lo") := rfl
  have e4 : str "Hel" ++ str "lo" = str "Hello" := rfl
  have e5 : str "Hello" ≠ [] := by decide
  have e6 : str "lo" ≠ [] := by decide
  have e7 : Stream.isAssistant (Stream.mkAssistantMessage (str "Hel") []) =
      true := rfl
  have hstep2 : Stream.processChunk
      ({ messages := ms ++ [Stream.mkAssistantMessage (str "Hel") []]
         accumulatedContent := str "Hel"
         accumulatedReasoning := []
         seenToolCallIds := []
         toolMessagesByCallId := [] } : Stream.ChatState)
      (Stream.contentChunk (str "lo")) =
      { messages := ms ++ [Stream.mkAssistantMessage (str "Hello") []]
        accumulatedContent := str "Hello"
        accumulatedReasoning := []
        seenToolCallIds := []
        toolMessagesByCallId := [] } := by
    unfold Stream.processChunk
    simp [Stream.contentChunk, Stream.chunkDelta, Stream.chunkMessage,
      jsOrArr, e0, e3, e4, e5, e6]
    rw [Stream.findLastIndexP_concat, e7]
    simp [Stream.set_concat_length]
  show (Stream.processChunk (Stream.processChunk (Stream.initState ms)
      (Stream.contentChunk (str "Hel")))
      (Stream.contentChunk (str "lo"))).messages = _
  rw [hstep1, hstep2]

/-- C6 witness: starting after a single user message, the two deltas
yield that user message followed by one assistant message `"Hello"`. -/
theorem claim_C6_witness :
    (Stream.processChunks (Stream.initState [Fix.userMsg])
        [Stream.contentChunk (str "Hel"),
         Stream.contentChunk (str "lo")]).messages =
      [Fix.userMsg] ++ [Stream.mkAssistantMessage (str "Hello") []] :=
  claim_C6_stream_in_place_update [Fix.userMsg] (by
    intro m hm
    rw [List.getLast?_singleton] at hm
    injection hm with h
    subst h
    decide)

/-- Content attribution for every fragment-plus-content chunk, whether
the last fragment's id is fresh or continuing: under the state invariant
that recorded ids and content entries coincide, the content is appended
to the entry of the chunk's last tool-call id. -/
theorem toolChunk_map_append (s : Stream.ChatState) (c : Str)
    (ys : List Stream.ToolCall) (tl : Stream.ToolCall) (hc : c ≠ [])
    (hinv : ∀ cid,
      (Stream.mapLookup s.toolMessagesByCallId cid).isSome = true ↔
      s.seenToolCallIds.contains cid = true) :
    Stream.mapLookup (Stream.processChunk s
        (Fix.toolContentChunk (ys ++ [tl]) (some c))).toolMessagesByCallId
        tl.id =
      some ((Stream.mapLookup s.toolMessagesByCallId tl.id).getD [] ++ c)
    := by
  rw [Stream.processChunk_toolChunk_val s c (ys ++ [tl]) tl hc
    (List.getLast?_concat ys)]
  rw [List.filter_append]
  by_cases hseen : s.seenToolCallIds.contains tl.id = true
  · have hmem : tl.id ∈ s.seenToolCallIds := by simpa using hseen
    have hf1 : [tl].filter
        (fun t => ! s.seenToolCallIds.contains t.id) = [] := by
      simp [hmem]
    have hnone : ∀ t ∈ ys.filter
        (fun t => ! s.seenToolCallIds.contains t.id), t.id ≠ tl.id := by
      intro t ht hid
      have h2 := (List.mem_filter.mp ht).2
      rw [hid] at h2
      simp only [Bool.not_eq_true'] at h2
      exact absurd hmem (by simpa using h2)
    obtain ⟨v, hv⟩ := Option.isSome_iff_exists.mp ((hinv tl.id).mpr hseen)
    rw [hf1, List.append_nil]
    dsimp only
    rw [Stream.foldl_openOne]
    dsimp only
    rw [Stream.mapLookup_foldl_ne _ _ _ hnone, hv]
    simp only [Option.isSome_some, if_true, Option.getD_some]
    exact Stream.mapLookup_mapSet_self _ _ _
  · have hmemn : tl.id ∉ s.seenToolCallIds := by
      simp only [Bool.not_eq_true] at hseen
      simpa using hseen
    have hf1 : [tl].filter
        (fun t => ! s.seenToolCallIds.contains t.id) = [tl] := by
      simp [hmemn]
    have hvnone : Stream.mapLookup s.toolMessagesByCallId tl.id = none := by
      cases hx : Stream.mapLookup s.toolMessagesByCallId tl.id with
      | none => rfl
      | some v =>
        have := (hinv tl.id).mp (by rw [hx]; rfl)
        exact absurd this hseen
    rw [hf1]
    dsimp only
    rw [Stream.foldl_openOne]
    dsimp only
    rw [Stream.mapLookup_foldl_last]
    simp only [Option.isSome_some, if_true, Option.getD_some, hvnone,
      Option.getD_none, List.nil_append]
    exact Stream.mapLookup_mapSet_self _ _ _

/-- The spec scenario: a fresh fragment chunk followed by a content
chunk repeating the same call id puts the content on that tool call's
agent message (still the last list element) and leaves the assistant
accumulator untouched. -/
theorem toolChunk_repeat_scenario (s : Stream.ChatState) (c : Str)
    (tl : Stream.ToolCall) (hc : c ≠ [])
    (hfresh : s.seenToolCallIds.contains tl.id = false) :
    (Stream.processChunk (Stream.processChunk s
        (Fix.toolContentChunk [tl] none))
        (Fix.toolContentChunk [tl] (some c))).messages.getLast? =
      some ⟨Stream.Role.agent, c, none, true, some [tl]⟩ ∧
    (Stream.processChunk (Stream.processChunk s
        (Fix.toolContentChunk [tl] none))
        (Fix.toolContentChunk [tl] (some c))).accumulatedContent =
      s.accumulatedContent := by
  rw [Stream.processChunk_toolChunk_none_val s tl hfresh]
  rw [Stream.processChunk_toolChunk_val _ c [tl] tl hc rfl]
  have hm2 : tl.id ∈ Stream.setAdd s.seenToolCallIds tl.id := by
    simpa using Stream.contains_setAdd_self s.seenToolCallIds tl.id
  have hf1 : [tl].filter (fun t =>
      ! (Stream.setAdd s.seenToolCallIds tl.id).contains t.id) = [] := by
    simp [hm2]
  rw [hf1]
  dsimp only [List.foldl_nil]
  rw [Stream.mapLookup_mapSet_self]
  simp only [Option.isSome_some, if_true, Option.getD_some,
    List.nil_append]
  have hp : Stream.agentMsgFor tl.id (Stream.mkAgentMessage tl) = true := by
    simp [Stream.agentMsgFor, Stream.mkAgentMessage]
  constructor
  · dsimp only
    rw [Stream.updateLastWhere_concat _ _ _ _ hp]
    rw [List.getLast?_concat]
    simp [Stream.mkAgentMessage]
  · trivial

/-- The continuing-fragment fixture state satisfies the seen-ids /
content-entries invariant. -/
theorem sToolSeen_inv : ∀ cid,
    (Stream.mapLookup Fix.sToolSeen.toolMessagesByCallId cid).isSome =
      true ↔
    Fix.sToolSeen.seenToolCallIds.contains cid = true := by
  intro cid
  show (Stream.mapLookup [(str "t1", str "par")] cid).isSome = true ↔
    ([str "t1"] : List Str).contains cid = true
  rw [Stream.mapLookup]
  split
  · rename_i h
    subst h
    simp
  · rename_i h
    rw [Stream.mapLookup]
    simp only [Option.isSome_none, Bool.false_eq_true, false_iff]
    simp only [List.contains_cons, List.contains_nil, Bool.or_false]
    intro hx
    exact h (eq_of_beq hx).symm

/-- C7: for every chunk that carries tool-call fragments together with
content: (i) the assistant accumulator and the assistant messages are
left unchanged, for every fragment list and content field; (ii) the
content is appended to the entry of the chunk's most recently opened
tool-call id (its last fragment), whether that id is fresh or already
continuing, given the reachable-state invariant that recorded ids and
content entries coincide; (iii) in the fragment-then-content two-chunk
scenario on one call id, the content lands on that tool call's agent
message while the assistant accumulator stays untouched. -/
theorem claim_C7_tool_call_content_attribution :
    (∀ (s : Stream.ChatState) (co : Option Str)
       (tcs : List Stream.ToolCall),
      (Stream.processChunk s
          (Fix.toolContentChunk tcs co)).accumulatedContent =
        s.accumulatedContent ∧
      (Stream.processChunk s
          (Fix.toolContentChunk tcs co)).messages.filter
          Stream.isAssistant = s.messages.filter Stream.isAssistant) ∧
    (∀ (s : Stream.ChatState) (c : Str) (ys : List Stream.ToolCall)
       (tl : Stream.ToolCall), c ≠ [] →
      (∀ cid, (Stream.mapLookup s.toolMessagesByCallId cid).isSome = true ↔
        s.seenToolCallIds.contains cid = true) →
      Stream.mapLookup (Stream.processChunk s
          (Fix.toolContentChunk (ys ++ [tl])
            (some c))).toolMessagesByCallId tl.id =
        some ((Stream.mapLookup s.toolMessagesByCallId tl.id).getD []
          ++ c)) ∧
    (∀ (s : Stream.ChatState) (c : Str) (tl : Stream.ToolCall), c ≠ [] →
      s.seenToolCallIds.contains tl.id = false →
      (Stream.processChunk (Stream.processChunk s
          (Fix.toolContentChunk [tl] none))
          (Fix.toolContentChunk [tl] (some c))).messages.getLast? =
        some ⟨Stream.Role.agent, c, none, true, some [tl]⟩ ∧
      (Stream.processChunk (Stream.processChunk s
          (Fix.toolContentChunk [tl] none))
          (Fix.toolContentChunk [tl] (some c))).accumulatedContent =
        s.accumulatedContent) :=
  ⟨fun s co tcs =>
    ⟨Stream.processChunk_toolChunk_acc s co tcs,
     Stream.processChunk_toolChunk_filter s co tcs⟩,
   fun s c ys tl hc hinv => toolChunk_map_append s c ys tl hc hinv,
   fun s c tl hc hfresh => toolChunk_repeat_scenario s c tl hc hfresh⟩

/-- C7 witness: on the state where tool call `t1` already holds `"par"`,
a repeat-fragment chunk with content `"out"` leaves the accumulator and
assistant messages alone and extends the entry to `"par" ++ "out"`; and
the fresh fragment-then-content pair puts `"out"` on the agent
message. -/
theorem claim_C7_witness :
    ((Stream.processChunk Fix.sToolSeen
        (Fix.toolContentChunk [Fix.tc1]
          (some (str "out")))).accumulatedContent =
      Fix.sToolSeen.accumulatedContent ∧
    (Stream.processChunk Fix.sToolSeen
        (Fix.toolContentChunk [Fix.tc1]
          (some (str "out")))).messages.filter Stream.isAssistant =
      Fix.sToolSeen.messages.filter Stream.isAssistant) ∧
    Stream.mapLookup (Stream.processChunk Fix.sToolSeen
        (Fix.toolContentChunk ([] ++ [Fix.tc1])
          (some (str "out")))).toolMessagesByCallId Fix.tc1.id =
      some ((Stream.mapLookup Fix.sToolSeen.toolMessagesByCallId
        Fix.tc1.id).getD [] ++ str "out") ∧
    ((Stream.processChunk (Stream.processChunk
        (Stream.initState [Fix.userMsg])
        (Fix.toolContentChunk [Fix.tc1] none))
        (Fix.toolContentChunk [Fix.tc1]
          (some (str "out")))).messages.getLast? =
      some ⟨Stream.Role.agent, str "out", none, true, some [Fix.tc1]⟩ ∧
    (Stream.processChunk (Stream.processChunk
        (Stream.initState [Fix.userMsg])
        (Fix.toolContentChunk [Fix.tc1] none))
        (Fix.toolContentChunk [Fix.tc1]
          (some (str "out")))).accumulatedContent =
      (Stream.initState [Fix.userMsg]).accumulatedContent) :=
  ⟨claim_C7_tool_call_content_attribution.1 Fix.sToolSeen
     (some (str "out")) [Fix.tc1],
   claim_C7_tool_call_content_attribution.2.1 Fix.sToolSeen (str "out")
     [] Fix.tc1 (by decide) sToolSeen_inv,
   claim_C7_tool_call_content_attribution.2.2
     (Stream.initState [Fix.userMsg]) (str "out") Fix.tc1 (by decide)
     (by decide)⟩

/-!
## Claim C8 — the client retry bound is violated on a thrown retry
-/

/-- C8 (counter-evidence): on the trace where the first protected fetch
returns a 403 signalling `requiresReauth` and the retried fetch throws,
`secureRequest` does not surface the failure: `clearTokenCache` and the
`finally` have already reset `isRetrying` when the outer `catch` runs, so
the catch path re-authenticates and fetches the protected URL a third
time, returning that third response.  One call fetches the URL 3 times —
two re-authentication-and-resend cycles, not at most one. -/
theorem claim_C8_third_fetch_on_failed_retry :
    (Client.secureRequest Fix.w8 Fix.o8).2.2.mainCalls = 3 ∧
    (Client.secureRequest Fix.w8 Fix.o8).1 = Except.ok Fix.ok200 :=
  ⟨rfl, rfl⟩
